import Mathlib

/-!
Verification development for the prompt-utility module of the LECO
repository (src/prompt_util.py).  The module has three parts:

* a config resolver (`PromptSettings` with its pre-root-validator
  `fill_prompts`, and `load_prompts_from_yaml`),
* an embedding cache (`PromptCache`, a class whose `prompts` dict is a
  class attribute),
* a guided-loss engine (`PromptPair` with `_erase`, `_enhance`, `loss`).

The embedding below is a shallow translation of that source file.
Tensors (`torch.FloatTensor`) are modelled as lists of rationals:
the source performs exact elementwise float arithmetic and all inputs of
interest are small integers, so `ℚ` stands in for the float carrier.
Raw YAML records are modelled as records of optional scalar values;
pydantic's per-field coercion and validation is modelled only to the
fidelity the source exercises (see the comments on the individual
validators).
-/

/-- A scalar YAML value, as delivered by `yaml.safe_load` for one field. -/
inductive Val where
  | vstr (s : String)
  | vint (n : Int)
  | vfloat (q : ℚ)
  | vbool (b : Bool)
  | vnull
deriving DecidableEq

/-- `ACTION_TYPES = Literal["erase", "enhance"]` from the source. -/
inductive PromptAction where
  | erase
  | enhance
deriving DecidableEq

/-- The resolved configuration value, mirroring the fields of the pydantic
model `PromptSettings` (src/prompt_util.py lines 26-35). -/
structure PromptSettings where
  target : String
  positive : String
  unconditional : String
  neutral : String
  action : PromptAction
  guidance_scale : ℚ
  resolution : Int
  dynamic_resolution : Bool
  batch_size : Int
deriving DecidableEq

/-- One raw record of the YAML prompts file: a dict that may or may not
contain each of the nine known keys (`none` = key absent).  Extra keys are
ignored by both `fill_prompts` and pydantic, so they are not modelled. -/
structure RawRecord where
  target : Option Val := none
  positive : Option Val := none
  unconditional : Option Val := none
  neutral : Option Val := none
  action : Option Val := none
  guidance_scale : Option Val := none
  resolution : Option Val := none
  dynamic_resolution : Option Val := none
  batch_size : Option Val := none
deriving DecidableEq

/-- The record after `fill_prompts` ran: the four string-valued keys are
guaranteed present (the validator raised otherwise, or filled them), the
remaining keys are still optional and fall to pydantic field defaults. -/
structure FilledRecord where
  target : Val
  positive : Val
  unconditional : Val
  neutral : Val
  action : Option Val
  guidance_scale : Option Val
  resolution : Option Val
  dynamic_resolution : Option Val
  batch_size : Option Val
deriving DecidableEq

/-- The errors the resolver can raise, by content.  `missingTarget` is the
`ValueError("target must be specified")` raised inside `fill_prompts`;
`schemaError` is a pydantic `ValidationError`, which carries the list of
offending field locations (and nothing else that identifies the record);
`emptyConfig` is the `ValueError("prompts file is empty")` of
`load_prompts_from_yaml`. -/
inductive ResolveError where
  | missingTarget
  | schemaError (fields : List String)
  | emptyConfig
deriving DecidableEq

/-- Digit-string parsing helper: `some n` iff the character list is a
non-empty run of decimal digits. -/
def parseNatDigits (cs : List Char) : Option Nat :=
  if cs = [] then none
  else if cs.all (fun c => c.isDigit) then
    some (cs.foldl (fun n c => 10 * n + (c.toNat - 48)) 0)
  else none

/-- Split a character list at every '.' (models the lexical shape Python's
`float` accepts for plain decimals). -/
def splitOnDot : List Char → List (List Char)
  | [] => [[]]
  | c :: rest =>
    let r := splitOnDot rest
    if c = '.' then [] :: r
    else
      match r with
      | [] => [[c]]
      | h :: t => (c :: h) :: t

/-- Parse an unsigned decimal string `digits` or `digits.digits` to `ℚ`.
Python's `float` also accepts forms such as `".5"`, `"1."`, exponents and
`"inf"`; none of those occur in this development. -/
def parseDecimalCore (cs : List Char) : Option ℚ :=
  match splitOnDot cs with
  | [a] => (parseNatDigits a).map (fun n => (n : ℚ))
  | [a, b] =>
    match parseNatDigits a, parseNatDigits b with
    | some n, some m => some ((n : ℚ) + (m : ℚ) / ((10 : ℚ) ^ b.length))
    | _, _ => none
  | _ => none

/-- Signed decimal string to `ℚ`, as `float(s)` would produce. -/
def parseDecimal (s : String) : Option ℚ :=
  match s.data with
  | [] => none
  | c :: rest =>
    if c = '-' then (parseDecimalCore rest).map (fun q => -q)
    else if c = '+' then parseDecimalCore rest
    else parseDecimalCore s.data

/-- Signed integer string to `Int`, as `int(s)` would produce. -/
def parseIntStr (s : String) : Option Int :=
  match s.data with
  | [] => none
  | c :: rest =>
    if c = '-' then (parseNatDigits rest).map (fun n => -(n : Int))
    else if c = '+' then (parseNatDigits rest).map (fun n => (n : Int))
    else (parseNatDigits s.data).map (fun n => (n : Int))

/-- Pydantic `str` field: accepts a string.  (Pydantic v1 additionally
coerces numbers to their decimal string; no claim exercises that path, so
string fields are modelled on string inputs only.) -/
def vStr : Val → Option String
  | .vstr s => some s
  | _ => none

/-- Pydantic `Literal["erase", "enhance"]` field: the value must equal one
of the two permitted literals, with no coercion. -/
def vAction (v : Val) : Option PromptAction :=
  match v with
  | .vstr s =>
    if s = "erase" then some PromptAction.erase
    else if s = "enhance" then some PromptAction.enhance
    else none
  | _ => none

/-- Pydantic v1 `float` field: floats and ints pass, bools coerce to 0/1,
strings go through `float(s)`, `None` is rejected. -/
def vFloat : Val → Option ℚ
  | .vfloat q => some q
  | .vint n => some ((n : ℚ))
  | .vbool b => some (if b then 1 else 0)
  | .vstr s => parseDecimal s
  | .vnull => none

/-- Pydantic v1 `int` field: ints pass, floats truncate toward zero via
`int(v)`, bools coerce to 0/1, strings go through `int(s)`, `None` is
rejected. -/
def vIntF : Val → Option Int
  | .vint n => some n
  | .vfloat q => some (if 0 ≤ q then Int.floor q else Int.ceil q)
  | .vbool b => some (if b then 1 else 0)
  | .vstr s => parseIntStr s
  | .vnull => none

/-- Pydantic `bool` field: accepts a bool.  (Pydantic v1 additionally
accepts 0/1 and a few literal strings; no claim exercises that path.) -/
def vBool : Val → Option Bool
  | .vbool b => some b
  | _ => none

/-- Validate an optional field: an absent key takes the (unvalidated)
field default, a present key must convert. -/
def optConv {α : Type} (conv : Val → Option α) (v : Option Val) (dflt : α) : Option α :=
  match v with
  | none => some dflt
  | some x => conv x

/-- The `fill_prompts` body after the `target` check (src/prompt_util.py
lines 42-49): `positive` defaults to the raw `target` value,
`unconditional` to the empty string, and `neutral` to whatever
`unconditional` holds at that point (the user's value if supplied). -/
def fillWith (r : RawRecord) (t : Val) : FilledRecord :=
  let unc := r.unconditional.getD (Val.vstr (""))
  { target := t
    positive := r.positive.getD t
    unconditional := unc
    neutral := r.neutral.getD unc
    action := r.action
    guidance_scale := r.guidance_scale
    resolution := r.resolution
    dynamic_resolution := r.dynamic_resolution
    batch_size := r.batch_size }

/-- `fill_prompts` (src/prompt_util.py lines 37-49): raise if `target` is
absent, otherwise fill the three defaultable string keys by key presence. -/
def fillPrompts (r : RawRecord) : Except ResolveError FilledRecord :=
  match r.target with
  | none => Except.error ResolveError.missingTarget
  | some t => Except.ok (fillWith r t)

/-- The field locations pydantic would report for a filled record: each
field that is present but fails its validator, in declaration order. -/
def errFields (f : FilledRecord) : List String :=
  (if (vStr f.target).isSome then [] else ["target"]) ++
  (if (vStr f.positive).isSome then [] else ["positive"]) ++
  (if (vStr f.unconditional).isSome then [] else ["unconditional"]) ++
  (if (vStr f.neutral).isSome then [] else ["neutral"]) ++
  (if (optConv vAction f.action PromptAction.erase).isSome then [] else ["action"]) ++
  (if (optConv vFloat f.guidance_scale 1).isSome then [] else ["guidance_scale"]) ++
  (if (optConv vIntF f.resolution 512).isSome then [] else ["resolution"]) ++
  (if (optConv vBool f.dynamic_resolution false).isSome then [] else ["dynamic_resolution"]) ++
  (if (optConv vIntF f.batch_size 1).isSome then [] else ["batch_size"])

/-- Pydantic field validation of the filled record: every field either
converts or takes its declared default (`action = erase`,
`guidance_scale = 1.0`, `resolution = 512`, `dynamic_resolution = False`,
`batch_size = 1`); if any present field fails, a `ValidationError` listing
the offending fields is raised.  The `getD` defaults in the success branch
are never the value used: when `errFields f = []` every conversion is
`some`. -/
def validateFields (f : FilledRecord) : Except (List String) PromptSettings :=
  if errFields f = [] then
    Except.ok
      { target := (vStr f.target).getD ("")
        positive := (vStr f.positive).getD ("")
        unconditional := (vStr f.unconditional).getD ("")
        neutral := (vStr f.neutral).getD ("")
        action := (optConv vAction f.action PromptAction.erase).getD PromptAction.erase
        guidance_scale := (optConv vFloat f.guidance_scale 1).getD 1
        resolution := (optConv vIntF f.resolution 512).getD 512
        dynamic_resolution := (optConv vBool f.dynamic_resolution false).getD false
        batch_size := (optConv vIntF f.batch_size 1).getD 1 }
  else Except.error (errFields f)

/-- `PromptSettings(**prompt)`: run the pre root validator, then validate
fields. -/
def validateRecord (r : RawRecord) : Except ResolveError PromptSettings :=
  match fillPrompts r with
  | Except.error e => Except.error e
  | Except.ok f =>
    match validateFields f with
    | Except.ok s => Except.ok s
    | Except.error fields => Except.error (ResolveError.schemaError fields)

/-- The list comprehension `[PromptSettings(**prompt) for prompt in prompts]`:
records are resolved left to right and the first exception aborts the
whole comprehension, so no partial list is produced. -/
def resolveList : List RawRecord → Except ResolveError (List PromptSettings)
  | [] => Except.ok []
  | r :: rs =>
    match validateRecord r with
    | Except.error e => Except.error e
    | Except.ok s =>
      match resolveList rs with
      | Except.error e => Except.error e
      | Except.ok ss => Except.ok (s :: ss)

/-- `load_prompts_from_yaml` after YAML parsing (src/prompt_util.py lines
138-143): an empty record sequence raises, otherwise each record is
resolved in order. -/
def resolveRecords (rs : List RawRecord) : Except ResolveError (List PromptSettings) :=
  if rs.length = 0 then Except.error ResolveError.emptyConfig
  else resolveList rs

/-- Latent tensors are modelled as rational vectors. -/
abbrev Tensor := List ℚ

/-- Elementwise tensor addition (same-shape tensors, per spec section 4.3). -/
def vadd (a b : Tensor) : Tensor := List.zipWith (· + ·) a b

/-- Elementwise tensor subtraction. -/
def vsub (a b : Tensor) : Tensor := List.zipWith (· - ·) a b

/-- Scalar multiplication of a tensor. -/
def smul (c : ℚ) (a : Tensor) : Tensor := a.map (fun x => c * x)

/-- The reference latent of `_erase`:
`neutral_latents - guidance_scale * (positive_latents - unconditional_latents)`. -/
def refErase (g : ℚ) (pos unc neu : Tensor) : Tensor :=
  vsub neu (smul g (vsub pos unc))

/-- The reference latent of `_enhance`:
`neutral_latents + guidance_scale * (positive_latents - unconditional_latents)`. -/
def refEnhance (g : ℚ) (pos unc neu : Tensor) : Tensor :=
  vadd neu (smul g (vsub pos unc))

/-- `PromptPair` (src/prompt_util.py lines 52-88): the four stored latent
embeddings, the scalar config fields, the injected loss function and the
action.  The action is a runtime string, as in Python, so that the `else`
branch of `loss` is representable. -/
structure PromptPair where
  loss_fn : Tensor → Tensor → ℚ
  target : Tensor
  positive : Tensor
  unconditional : Tensor
  neutral : Tensor
  guidance_scale : ℚ
  resolution : Int
  dynamic_resolution : Bool
  batch_size : Int
  action : String

/-- `PromptPair._erase`: apply the injected loss function to the target
latents and the erase reference latent. -/
def PromptPair.eraseLoss (p : PromptPair)
    (target_latents positive_latents unconditional_latents neutral_latents : Tensor) : ℚ :=
  p.loss_fn target_latents
    (refErase p.guidance_scale positive_latents unconditional_latents neutral_latents)

/-- `PromptPair._enhance`: apply the injected loss function to the target
latents and the enhance reference latent. -/
def PromptPair.enhanceLoss (p : PromptPair)
    (target_latents positive_latents unconditional_latents neutral_latents : Tensor) : ℚ :=
  p.loss_fn target_latents
    (refEnhance p.guidance_scale positive_latents unconditional_latents neutral_latents)

/-- `PromptPair.loss` (src/prompt_util.py lines 120-131): dispatch on the
action string; any other action raises `ValueError`. -/
def PromptPair.loss (p : PromptPair)
    (target_latents positive_latents unconditional_latents neutral_latents : Tensor) :
    Except String ℚ :=
  if p.action = "erase" then
    Except.ok (p.eraseLoss target_latents positive_latents unconditional_latents neutral_latents)
  else if p.action = "enhance" then
    Except.ok (p.enhanceLoss target_latents positive_latents unconditional_latents neutral_latents)
  else Except.error ("action must be erase or enhance")

/-- The injected loss function used by the spec's concrete example:
elementwise absolute difference, summed to a scalar. -/
def absDiff (a b : Tensor) : ℚ := ((vsub a b).map (fun x => |x|)).sum

/-- The concrete `PromptPair` of the spec's erase example. -/
def concretePair : PromptPair :=
  { loss_fn := absDiff
    target := [0]
    positive := [2]
    unconditional := [0]
    neutral := [0]
    guidance_scale := 1
    resolution := 512
    dynamic_resolution := false
    batch_size := 1
    action := "erase" }

/-- The mutable dict underlying the cache: an association list with
Python-dict update semantics (assignment overwrites in place). -/
abbrev PromptDict := List (String × Tensor)

/-- `d[k] = v` on a Python dict: overwrite the existing entry or append. -/
def dictSet : PromptDict → String → Tensor → PromptDict
  | [], k, v => [(k, v)]
  | p :: d, k, v => if p.1 = k then (k, v) :: d else p :: dictSet d k v

/-- `k in d` lookup returning the stored value or `None`. -/
def dictGet : PromptDict → String → Option Tensor
  | [], _ => none
  | p :: d, k => if p.1 = k then some p.2 else dictGet d k

/-- The `PromptCache` class object.  Its `prompts` dict is a class
attribute (src/prompt_util.py line 14); instances define no attributes of
their own (there is no `__init__` and the methods never assign to `self`),
so attribute lookup from any instance reaches this one dict.  Instances
are therefore modelled as bare identifiers (`Nat`). -/
structure PromptCache where
  prompts : PromptDict

/-- `PromptCache.__setitem__`: `self.prompts[name] = value` mutates the
class-level dict, whichever instance `self` is. -/
def PromptCache.setItem (st : PromptCache) (self : Nat) (name : String) (value : Tensor) :
    PromptCache :=
  { prompts := dictSet st.prompts name value }

/-- `PromptCache.__getitem__`: return the stored value when the key is
present, `None` otherwise; never raises. -/
def PromptCache.getItem (st : PromptCache) (self : Nat) (name : String) : Option Tensor :=
  dictGet st.prompts name

/-- Run a sequence of `__setitem__` calls (instance, key, value) from a
given cache state. -/
def applyPuts (st : PromptCache) (ops : List (Nat × String × Tensor)) : PromptCache :=
  ops.foldl (fun s op => PromptCache.setItem s op.1 op.2.1 op.2.2) st

/-- Raw record with a target and an action outside the permitted literals. -/
def recA : RawRecord :=
  { target := some (Val.vstr ("A")), action := some (Val.vstr ("invert")) }

/-- Raw record supplying only a target. -/
def recB : RawRecord := { target := some (Val.vstr ("B")) }

/-- Raw record lacking the `target` key. -/
def recNoTarget : RawRecord := {}

/-- The resolution of `recB`: every defaultable field at its default. -/
def settingsB : PromptSettings :=
  { target := "B"
    positive := "B"
    unconditional := ""
    neutral := ""
    action := PromptAction.erase
    guidance_scale := 1
    resolution := 512
    dynamic_resolution := false
    batch_size := 1 }

/-- Raw record whose `guidance_scale` value cannot be coerced to a float. -/
def recG : RawRecord :=
  { target := some (Val.vstr ("A")), guidance_scale := some (Val.vstr ("abc")) }

/-- Raw record whose `resolution` value cannot be coerced to an int. -/
def recR : RawRecord :=
  { target := some (Val.vstr ("A")), resolution := some (Val.vstr ("abc")) }

/-- Raw record whose `batch_size` value cannot be coerced to an int. -/
def recBS : RawRecord :=
  { target := some (Val.vstr ("A")), batch_size := some (Val.vstr ("abc")) }

theorem fillPrompts_eq_ok (r : RawRecord) (t : Val) (h : r.target = some t) :
    fillPrompts r = Except.ok (fillWith r t) := by
  simp [fillPrompts, h]

theorem validateFields_eq_err (f : FilledRecord) (h : errFields f ≠ []) :
    validateFields f = Except.error (errFields f) := by
  simp [validateFields, h]

theorem validateRecord_eq_schema (r : RawRecord) (t : Val) (h : r.target = some t)
    (h2 : errFields (fillWith r t) ≠ []) :
    validateRecord r = Except.error (ResolveError.schemaError (errFields (fillWith r t))) := by
  simp [validateRecord, fillPrompts_eq_ok r t h, validateFields_eq_err _ h2]

theorem action_mem_errFields (r : RawRecord) (t a : Val) (ha : r.action = some a)
    (hv : vAction a = none) : ("action") ∈ errFields (fillWith r t) := by
  simp [errFields, fillWith, optConv, ha, hv]

theorem guidance_mem_errFields (r : RawRecord) (t g : Val) (hg : r.guidance_scale = some g)
    (hv : vFloat g = none) : ("guidance_scale") ∈ errFields (fillWith r t) := by
  simp [errFields, fillWith, optConv, hg, hv]

theorem resolution_mem_errFields (r : RawRecord) (t x : Val) (hx : r.resolution = some x)
    (hv : vIntF x = none) : ("resolution") ∈ errFields (fillWith r t) := by
  simp [errFields, fillWith, optConv, hx, hv]

theorem batch_mem_errFields (r : RawRecord) (t x : Val) (hx : r.batch_size = some x)
    (hv : vIntF x = none) : ("batch_size") ∈ errFields (fillWith r t) := by
  simp [errFields, fillWith, optConv, hx, hv]

theorem validateRecord_of_target_none (r : RawRecord) (h : r.target = none) :
    validateRecord r = Except.error ResolveError.missingTarget := by
  simp [validateRecord, fillPrompts, h]

theorem resolveList_append_error (pre : List RawRecord) (r : RawRecord) (post : List RawRecord)
    (ss : List PromptSettings) (e : ResolveError) (hpre : resolveList pre = Except.ok ss)
    (hr : validateRecord r = Except.error e) :
    resolveList (pre ++ r :: post) = Except.error e := by
  induction pre generalizing ss with
  | nil => simp [resolveList, hr]
  | cons a l ih =>
    cases hva : validateRecord a with
    | error e2 => rw [resolveList, hva] at hpre; cases hpre
    | ok s =>
      rw [resolveList, hva] at hpre
      cases hrl : resolveList l with
      | error e2 => rw [hrl] at hpre; cases hpre
      | ok ss2 =>
        rw [List.cons_append, resolveList, hva, ih ss2 hrl]

theorem resolveList_error_of_mem (rs : List RawRecord) (r : RawRecord) (e : ResolveError)
    (hm : r ∈ rs) (hr : validateRecord r = Except.error e) :
    ∃ e2, resolveList rs = Except.error e2 := by
  induction rs with
  | nil => cases hm
  | cons a l ih =>
    cases hva : validateRecord a with
    | error e2 => exact ⟨e2, by rw [resolveList, hva]⟩
    | ok s =>
      rcases List.mem_cons.mp hm with hh | hh
      · rw [hh] at hr; rw [hva] at hr; cases hr
      · obtain ⟨e2, h2⟩ := ih hh
        exact ⟨e2, by rw [resolveList, hva, h2]⟩

theorem vadd_cons (a b : ℚ) (as bs : Tensor) :
    vadd (a :: as) (b :: bs) = (a + b) :: vadd as bs := rfl

theorem refErase_cons (g p u n : ℚ) (ps us ns : Tensor) :
    refErase g (p :: ps) (u :: us) (n :: ns) = (n - g * (p - u)) :: refErase g ps us ns := rfl

theorem refEnhance_cons (g p u n : ℚ) (ps us ns : Tensor) :
    refEnhance g (p :: ps) (u :: us) (n :: ns) = (n + g * (p - u)) :: refEnhance g ps us ns := rfl

theorem smul_cons (c a : ℚ) (as : Tensor) : smul c (a :: as) = (c * a) :: smul c as := rfl

theorem dictGet_dictSet_self (d : PromptDict) (k : String) (v : Tensor) :
    dictGet (dictSet d k v) k = some v := by
  induction d with
  | nil => simp [dictSet, dictGet]
  | cons p d ih =>
    by_cases h : p.1 = k
    · simp [dictSet, dictGet, h]
    · simp [dictSet, dictGet, h, ih]

theorem dictGet_dictSet_ne (d : PromptDict) (k2 k : String) (v : Tensor) (h : k2 ≠ k) :
    dictGet (dictSet d k2 v) k = dictGet d k := by
  induction d with
  | nil => simp [dictSet, dictGet, h]
  | cons p d ih =>
    by_cases h2 : p.1 = k2
    · simp [dictSet, dictGet, h2, h]
    · simp [dictSet, dictGet, h2, ih]

theorem applyPuts_getItem_ne (ops : List (Nat × String × Tensor)) (st : PromptCache)
    (k : String) (h : ∀ op ∈ ops, op.2.1 ≠ k) :
    dictGet (applyPuts st ops).prompts k = dictGet st.prompts k := by
  induction ops generalizing st with
  | nil => rfl
  | cons op l ih =>
    have h1 : op.2.1 ≠ k := h op (List.mem_cons_self op l)
    have h2 : ∀ o ∈ l, o.2.1 ≠ k := fun o ho => h o (List.mem_cons_of_mem op ho)
    calc dictGet (applyPuts (PromptCache.setItem st op.1 op.2.1 op.2.2) l).prompts k
        = dictGet (PromptCache.setItem st op.1 op.2.1 op.2.2).prompts k :=
          ih (PromptCache.setItem st op.1 op.2.1 op.2.2) h2
      _ = dictGet st.prompts k := dictGet_dictSet_ne st.prompts op.2.1 k op.2.2 h1

/-- C1: for every `PromptPair` whose action is the string `"erase"` and every
four latent inputs, `loss` returns exactly the injected loss function applied
to the target latents and the reference
`neutral_latents - guidance_scale * (positive_latents - unconditional_latents)`,
with no further modification of the scalar; in particular, for
target `[0]`, positive `[2]`, unconditional `[0]`, neutral `[0]`,
guidance scale 1 and absolute-difference loss, the result is 2. -/
theorem erase_loss_formula :
    (∀ (p : PromptPair) (t pos unc neu : Tensor), p.action = "erase" →
        p.loss t pos unc neu =
          Except.ok (p.loss_fn t (refErase p.guidance_scale pos unc neu))) ∧
    concretePair.loss [0] [2] [0] [0] = Except.ok 2 := by
  constructor
  · intro p t pos unc neu h
    simp [PromptPair.loss, h, PromptPair.eraseLoss]
  · simp [PromptPair.loss, concretePair, PromptPair.eraseLoss, absDiff, refErase, vsub, smul]

/-- Witness for C1 at the concrete erase example. -/
theorem erase_loss_formula_witness :
    concretePair.loss [0] [2] [0] [0] =
      Except.ok (concretePair.loss_fn [0] (refErase concretePair.guidance_scale [2] [0] [0])) :=
  erase_loss_formula.1 concretePair [0] [2] [0] [0] rfl

/-- C2: a raw record supplying only `target` resolves to a `PromptSettings`
with `positive = target`, `unconditional = ""`, `neutral = ""`,
`action = erase`, `guidance_scale = 1`, `resolution = 512`,
`dynamic_resolution = false`, `batch_size = 1`. -/
theorem target_only_defaults (t : String) :
    resolveRecords [{ target := some (Val.vstr t) }] =
      Except.ok [{ target := t, positive := t, unconditional := "", neutral := "",
                   action := PromptAction.erase, guidance_scale := 1, resolution := 512,
                   dynamic_resolution := false, batch_size := 1 }] := rfl

/-- C3: a raw record supplying `target` and `unconditional` but omitting
`neutral` resolves with `neutral` equal to the supplied `unconditional`
value, not the empty-string default. -/
theorem neutral_copies_unconditional (t u : String) :
    resolveRecords [{ target := some (Val.vstr t), unconditional := some (Val.vstr u) }] =
      Except.ok [{ target := t, positive := t, unconditional := u, neutral := u,
                   action := PromptAction.erase, guidance_scale := 1, resolution := 512,
                   dynamic_resolution := false, batch_size := 1 }] := rfl

/-- C4: for fixed latent inputs of one shape, the erase reference and the
enhance reference are reflections of each other across the neutral latents:
their sum is twice the neutral latents. -/
theorem erase_enhance_reflection (g : ℚ) (pos unc neu : Tensor)
    (h1 : pos.length = neu.length) (h2 : unc.length = neu.length) :
    vadd (refErase g pos unc neu) (refEnhance g pos unc neu) = smul 2 neu := by
  induction neu generalizing pos unc with
  | nil =>
    rw [List.length_nil, List.length_eq_zero] at h1 h2
    rw [h1, h2]
    rfl
  | cons x xs ih =>
    cases pos with
    | nil => simp at h1
    | cons p ps =>
      cases unc with
      | nil => simp at h2
      | cons w ws =>
        have h1' : ps.length = xs.length := by simpa using h1
        have h2' : ws.length = xs.length := by simpa using h2
        rw [refErase_cons, refEnhance_cons, vadd_cons, smul_cons]
        rw [ih ps ws h1' h2']
        congr 1
        ring

/-- Witness for C4 at one-element latents. -/
theorem erase_enhance_reflection_witness :
    vadd (refErase 2 [5] [1] [3]) (refEnhance 2 [5] [1] [3]) = smul 2 [3] :=
  erase_enhance_reflection 2 [5] [1] [3] rfl rfl

/-- C5: default-filling is decided by key presence, not value truthiness: a
record explicitly supplying `positive: ""` keeps the empty string instead of
falling back to `target`, and more generally every explicitly supplied value
of a defaultable field is kept verbatim. -/
theorem explicit_values_kept :
    (∀ t : String,
        validateRecord { target := some (Val.vstr t), positive := some (Val.vstr ("")) } =
          Except.ok { target := t, positive := "", unconditional := "", neutral := "",
                      action := PromptAction.erase, guidance_scale := 1, resolution := 512,
                      dynamic_resolution := false, batch_size := 1 }) ∧
    (∀ (t p u n : String) (g : ℚ) (r b : Int) (d : Bool),
        validateRecord
            { target := some (Val.vstr t), positive := some (Val.vstr p),
              unconditional := some (Val.vstr u), neutral := some (Val.vstr n),
              action := some (Val.vstr ("enhance")), guidance_scale := some (Val.vfloat g),
              resolution := some (Val.vint r), dynamic_resolution := some (Val.vbool d),
              batch_size := some (Val.vint b) } =
          Except.ok { target := t, positive := p, unconditional := u, neutral := n,
                      action := PromptAction.enhance, guidance_scale := g, resolution := r,
                      dynamic_resolution := d, batch_size := b }) :=
  ⟨fun _ => rfl, fun _ _ _ _ _ _ _ _ => rfl⟩

/-- C8: resolving an empty record sequence raises the empty-config error
("prompts file is empty") rather than returning an empty list. -/
theorem empty_records_error :
    resolveRecords [] = Except.error ResolveError.emptyConfig := rfl

/-- C6 counterexample: the claim requires the schema error to name the index
of the offending record, but the error raised for the invalid-action record
`recA` is the very same value whether `recA` sits at index 0 or at index 1,
so the error cannot name the record index: it carries only the field. -/
theorem schema_error_has_no_index :
    resolveRecords [recA] = Except.error (ResolveError.schemaError (["action"])) ∧
    resolveRecords [recB, recA] = Except.error (ResolveError.schemaError (["action"])) :=
  ⟨rfl, rfl⟩

/-- C6 (amended): if the records before some record all validate, and that
record has `target` present but an `action` outside the two permitted
literals, or a `guidance_scale`, `resolution` or `batch_size` value that is
not coercible to the expected numeric kind, then resolution raises a schema
error naming the offending field — but not the record index, which the error
does not carry. -/
theorem schema_error_names_field :
    (∀ (pre : List RawRecord) (r : RawRecord) (post : List RawRecord)
        (ss : List PromptSettings) (fields : List String),
        resolveList pre = Except.ok ss →
        validateRecord r = Except.error (ResolveError.schemaError fields) →
        resolveRecords (pre ++ r :: post) = Except.error (ResolveError.schemaError fields)) ∧
    (∀ (r : RawRecord) (t a : Val), r.target = some t → r.action = some a →
        vAction a = none →
        ∃ fields, validateRecord r = Except.error (ResolveError.schemaError fields) ∧
          ("action") ∈ fields) ∧
    (∀ (r : RawRecord) (t g : Val), r.target = some t → r.guidance_scale = some g →
        vFloat g = none →
        ∃ fields, validateRecord r = Except.error (ResolveError.schemaError fields) ∧
          ("guidance_scale") ∈ fields) ∧
    (∀ (r : RawRecord) (t x : Val), r.target = some t → r.resolution = some x →
        vIntF x = none →
        ∃ fields, validateRecord r = Except.error (ResolveError.schemaError fields) ∧
          ("resolution") ∈ fields) ∧
    (∀ (r : RawRecord) (t x : Val), r.target = some t → r.batch_size = some x →
        vIntF x = none →
        ∃ fields, validateRecord r = Except.error (ResolveError.schemaError fields) ∧
          ("batch_size") ∈ fields) := by
  refine ⟨?_, ?_, ?_, ?_, ?_⟩
  · intro pre r post ss fields hpre hr
    have hlen : (pre ++ r :: post).length ≠ 0 := by simp
    rw [resolveRecords, if_neg hlen]
    exact resolveList_append_error pre r post ss _ hpre hr
  · intro r t a ht ha hv
    have hmem := action_mem_errFields r t a ha hv
    exact ⟨errFields (fillWith r t),
      validateRecord_eq_schema r t ht (List.ne_nil_of_mem hmem), hmem⟩
  · intro r t g ht hg hv
    have hmem := guidance_mem_errFields r t g hg hv
    exact ⟨errFields (fillWith r t),
      validateRecord_eq_schema r t ht (List.ne_nil_of_mem hmem), hmem⟩
  · intro r t x ht hx hv
    have hmem := resolution_mem_errFields r t x hx hv
    exact ⟨errFields (fillWith r t),
      validateRecord_eq_schema r t ht (List.ne_nil_of_mem hmem), hmem⟩
  · intro r t x ht hx hv
    have hmem := batch_mem_errFields r t x hx hv
    exact ⟨errFields (fillWith r t),
      validateRecord_eq_schema r t ht (List.ne_nil_of_mem hmem), hmem⟩

/-- Witness for C6 (amended), instantiating every part at concrete records. -/
theorem schema_error_names_field_witness :
    resolveRecords [recB, recA] = Except.error (ResolveError.schemaError (["action"])) ∧
    (∃ fields, validateRecord recA = Except.error (ResolveError.schemaError fields) ∧
      ("action") ∈ fields) ∧
    (∃ fields, validateRecord recG = Except.error (ResolveError.schemaError fields) ∧
      ("guidance_scale") ∈ fields) ∧
    (∃ fields, validateRecord recR = Except.error (ResolveError.schemaError fields) ∧
      ("resolution") ∈ fields) ∧
    (∃ fields, validateRecord recBS = Except.error (ResolveError.schemaError fields) ∧
      ("batch_size") ∈ fields) :=
  ⟨schema_error_names_field.1 [recB] recA [] [settingsB] (["action"]) rfl rfl,
   schema_error_names_field.2.1 recA (Val.vstr ("A")) (Val.vstr ("invert")) rfl rfl rfl,
   schema_error_names_field.2.2.1 recG (Val.vstr ("A")) (Val.vstr ("abc")) rfl rfl rfl,
   schema_error_names_field.2.2.2.1 recR (Val.vstr ("A")) (Val.vstr ("abc")) rfl rfl rfl,
   schema_error_names_field.2.2.2.2 recBS (Val.vstr ("A")) (Val.vstr ("abc")) rfl rfl rfl⟩

/-- C7 counterexample: in the sequence `[recA, recNoTarget]` the second
record lacks `target`, yet resolution raises the schema error of the earlier
invalid-action record, not the missing-field error the claim demands. -/
theorem missing_target_claim_false :
    recNoTarget.target = none ∧
    resolveRecords [recA, recNoTarget] = Except.error (ResolveError.schemaError (["action"])) ∧
    ResolveError.schemaError (["action"]) ≠ ResolveError.missingTarget :=
  ⟨rfl, rfl, by decide⟩

/-- C7 (amended): whenever some record lacks `target`, resolution raises an
error and returns no partial list; the error is the missing-field error
provided every record before the target-lacking one validates. -/
theorem missing_target_aborts :
    (∀ rs : List RawRecord, (∃ r ∈ rs, r.target = none) →
        ∃ e, resolveRecords rs = Except.error e) ∧
    (∀ (pre : List RawRecord) (r : RawRecord) (post : List RawRecord)
        (ss : List PromptSettings),
        resolveList pre = Except.ok ss → r.target = none →
        resolveRecords (pre ++ r :: post) = Except.error ResolveError.missingTarget) := by
  constructor
  · intro rs hex
    obtain ⟨r, hm, ht⟩ := hex
    cases rs with
    | nil => cases hm
    | cons a l =>
      obtain ⟨e2, h2⟩ :=
        resolveList_error_of_mem (a :: l) r ResolveError.missingTarget hm
          (validateRecord_of_target_none r ht)
      have hlen : (a :: l).length ≠ 0 := by simp
      exact ⟨e2, by rw [resolveRecords, if_neg hlen]; exact h2⟩
  · intro pre r post ss hpre ht
    have hlen : (pre ++ r :: post).length ≠ 0 := by simp
    rw [resolveRecords, if_neg hlen]
    exact resolveList_append_error pre r post ss ResolveError.missingTarget hpre
      (validateRecord_of_target_none r ht)

/-- Witness for C7 (amended) at concrete record lists. -/
theorem missing_target_aborts_witness :
    (∃ e, resolveRecords [recNoTarget] = Except.error e) ∧
    resolveRecords [recB, recNoTarget] = Except.error ResolveError.missingTarget :=
  ⟨missing_target_aborts.1 [recNoTarget] ⟨recNoTarget, List.mem_singleton_self recNoTarget, rfl⟩,
   missing_target_aborts.2 [recB] recNoTarget [] [settingsB] rfl rfl⟩

/-- C9: cache contract — a get on a key never stored returns `none` (the
absent marker, never a fabricated value, and the operation is total so it
never raises); after a put of `v` under `k`, a get of `k` returns `v`; a
subsequent put of `v2` under `k` overwrites, so a get of `k` returns `v2`. -/
theorem cache_contract :
    (∀ (ops : List (Nat × String × Tensor)) (i : Nat) (k : String),
        (∀ op ∈ ops, op.2.1 ≠ k) →
        PromptCache.getItem (applyPuts { prompts := [] } ops) i k = none) ∧
    (∀ (st : PromptCache) (i j : Nat) (k : String) (v : Tensor),
        PromptCache.getItem (PromptCache.setItem st i k v) j k = some v) ∧
    (∀ (st : PromptCache) (i i2 j : Nat) (k : String) (v v2 : Tensor),
        PromptCache.getItem (PromptCache.setItem (PromptCache.setItem st i k v) i2 k v2) j k =
          some v2) := by
  refine ⟨?_, ?_, ?_⟩
  · intro ops i k h
    show dictGet (applyPuts { prompts := [] } ops).prompts k = none
    rw [applyPuts_getItem_ne ops { prompts := [] } k h]
    rfl
  · intro st i j k v
    exact dictGet_dictSet_self st.prompts k v
  · intro st i i2 j k v v2
    exact dictGet_dictSet_self (PromptCache.setItem st i k v).prompts k v2

/-- Witness for C9 at a concrete key and values. -/
theorem cache_contract_witness :
    PromptCache.getItem (applyPuts { prompts := [] } [(0, ("a"), [1])]) 0 ("b") = none ∧
    PromptCache.getItem (PromptCache.setItem { prompts := [] } 0 ("a") [1]) 1 ("a") = some [1] ∧
    PromptCache.getItem
        (PromptCache.setItem (PromptCache.setItem { prompts := [] } 0 ("a") [1]) 0 ("a") [2]) 0
        ("a") = some [2] :=
  ⟨cache_contract.1 [(0, ("a"), [1])] 0 ("b") (by decide),
   cache_contract.2.1 { prompts := [] } 0 1 ("a") [1],
   cache_contract.2.2 { prompts := [] } 0 0 0 ("a") [1] [2]⟩

/-- C10: the cache store is class-level state shared by all instances — a
value put through one instance is returned by a get through any other
instance, because `prompts` is a class attribute and instances hold no
per-instance mapping. -/
theorem cache_class_level_shared (st : PromptCache) (c1 c2 : Nat) (k : String) (v : Tensor)
    (h : c1 ≠ c2) :
    PromptCache.getItem (PromptCache.setItem st c1 k v) c2 k = some v :=
  dictGet_dictSet_self st.prompts k v

/-- Witness for C10 with two distinct instances. -/
theorem cache_class_level_shared_witness :
    PromptCache.getItem (PromptCache.setItem { prompts := [] } 0 ("k") [2]) 1 ("k") = some [2] :=
  cache_class_level_shared { prompts := [] } 0 1 ("k") [2] (by decide)
